import Mathlib

/-!
Verification of the live audio buffering and segmentation core of the
Dhwani-X repository: `src/buffer_manager.py` (class `BufferManager`),
`src/pipeline_live.py` (class `LivePipeline`) and `src/config.py`.

Modelling conventions (shallow embedding):
* Audio samples are opaque data that the core only copies, enqueues and
  concatenates — no arithmetic is ever performed on a sample — so a sample
  is modelled as `Int` and a chunk as `List Int` (the flattened shape the
  code produces with `chunk.flatten()` / `chunk.tolist()`).
* Python floats that the core compares or adds (speech probability, the
  `0.3`-second minimum-utterance threshold, cumulative speech time) are
  modelled as `Rat`.  The only float comparison, `len(u) < 16000 * 0.3`,
  is over integer lengths, where the double rounding of `16000 * 0.3`
  (≈ 4799.99999999999982) decides exactly like the rational `4800`.
* Exceptions are modelled as values: a fallible collaborator returns its
  (possibly mutated) state together with `Option String` (the exception it
  raised, if any); `try/except` blocks of the source become matches on that
  option.  `queue.Queue.put_nowait` on the unbounded error queue is given a
  boolean behaviour flag for whether it raises, mirroring the defensive
  `try: ... except: pass` wrappers in the source.
* Thread interleaving is modelled by an explicit operation sequence: the
  capture callback and the worker-loop body are state transformers applied
  in any order.
-/

/-- One audio chunk: the flattened list of samples delivered by one capture
callback invocation (`indata` of `BufferManager._audio_callback`). -/
abbrev Chunk := List Int

namespace DhwaniX

/- ------------------------------------------------------------------ -/
/- Configuration (src/config.py)                                       -/
/- ------------------------------------------------------------------ -/

/-- Default `AudioConfig.sample_rate` (src/config.py line 17). -/
def sample_rate : Nat := 16000

/-- Default `AudioConfig.context_duration`, seconds (src/config.py line 20). -/
def context_duration : Rat := 3

/-- Model of `AudioConfig.context_samples` = `int(context_duration * sample_rate)`
(src/config.py lines 30-32).  The product of the rational duration with the
natural sample rate is written `mkRat (context_duration.num * sample_rate)
context_duration.den` — the same rational — because Mathlib's field
multiplication on `Rat` is irreducible and would not evaluate inside the
kernel. -/
def context_samples : Nat :=
  (mkRat (context_duration.num * sample_rate) context_duration.den).floor.toNat

/-- Default `BufferConfig.queue_maxsize` (src/config.py line 65). -/
def queue_maxsize : Nat := 100

/-- The quantity `sample_rate * 0.3` of `pipeline_live.py` line 162: the minimum
utterance length in samples, as the exact rational (3 * sample_rate) / 10 =
4800 (built with `mkRat`, which evaluates inside the kernel, rather than
with Mathlib's irreducible field operations; over the integer lengths the
code compares, this decides exactly like the double `16000 * 0.3`). -/
def min_utterance_samples : Rat := mkRat (3 * sample_rate) 10

/- ------------------------------------------------------------------ -/
/- The bounded chunk queue (queue.Queue(maxsize=...), put_nowait)      -/
/- ------------------------------------------------------------------ -/

/-- Model of `queue.Queue(maxsize=m).put_nowait c`: fails (raises `queue.Full`,
modelled as `none`) exactly when `m > 0` and the queue already holds at
least `m` items; otherwise appends at the tail. -/
def putNowait (m : Nat) (q : List Chunk) (c : Chunk) : Option (List Chunk) :=
  if 0 < m ∧ m ≤ q.length then none else some (q ++ [c])

/-- The state the push path of `_audio_callback` touches
(src/buffer_manager.py lines 61-69): the bounded queue, the
`total_chunks_received` counter, and a ghost count of how many pushes hit
the `queue.Full` branch (the code has no such counter; it only logs). -/
structure PushCounters where
  queue : List Chunk
  received : Nat
  rejected_ghost : Nat
deriving DecidableEq, Repr

/-- One push attempt, `_audio_callback` lines 64-69: on success the chunk is
enqueued and `total_chunks_received` incremented; on `queue.Full` the
callback logs a warning and returns, leaving queue and counter untouched
(the ghost rejection count records the event for the statements below). -/
def tryPush (m : Nat) (st : PushCounters) (c : Chunk) : PushCounters :=
  match putNowait m st.queue c with
  | some q => ⟨q, st.received + 1, st.rejected_ghost⟩
  | none => ⟨st.queue, st.received, st.rejected_ghost + 1⟩

/-- A sequence of push attempts with no consumer draining. -/
def pushMany (m : Nat) (st : PushCounters) (cs : List Chunk) : PushCounters :=
  cs.foldl (tryPush m) st

/- ------------------------------------------------------------------ -/
/- The context ring buffer (collections.deque(maxlen=cap))             -/
/- ------------------------------------------------------------------ -/

/-- Model of `deque(maxlen=cap).append x`: when the deque is at capacity the oldest
element is popped from the left before appending (for `cap = 0` nothing is
retained, as in CPython). -/
def ringAppend (cap : Nat) (buf : List Int) (x : Int) : List Int :=
  if buf.length < cap then buf ++ [x]
  else (buf ++ [x]).drop (buf.length + 1 - cap)

/-- Model of `deque.extend xs`, repeated `append` (src/buffer_manager.py line 100). -/
def ringExtend (cap : Nat) (buf : List Int) (xs : List Int) : List Int :=
  xs.foldl (ringAppend cap) buf

theorem ringAppend_eq_rtake (cap : Nat) (buf : List Int) (x : Int) :
    ringAppend cap buf x = (buf ++ [x]).rtake cap := by
  unfold ringAppend List.rtake
  by_cases h : buf.length < cap
  · simp only [if_pos h, List.length_append, List.length_cons, List.length_nil]
    have : buf.length + 1 - cap = 0 := by omega
    simp [this]
  · simp only [if_neg h, List.length_append, List.length_cons, List.length_nil]

theorem length_rtake_le {α : Type} (n : Nat) (l : List α) :
    (l.rtake n).length ≤ n := by
  unfold List.rtake
  rw [List.length_drop]
  omega

theorem rtake_of_length_le {α : Type} {n : Nat} {l : List α}
    (h : l.length ≤ n) : l.rtake n = l := by
  unfold List.rtake
  have : l.length - n = 0 := by omega
  simp [this]

theorem rtake_append_rtake {α : Type} (n : Nat) (l m : List α) :
    ((l.rtake n) ++ m).rtake n = (l ++ m).rtake n := by
  have h1 := List.rtake_eq_reverse_take_reverse ((l.rtake n) ++ m) n
  have h2 := List.rtake_eq_reverse_take_reverse (l ++ m) n
  have hrev : (l.rtake n).reverse = l.reverse.take n := by
    rw [List.rtake_eq_reverse_take_reverse l n, List.reverse_reverse]
  rw [h1, h2, List.reverse_append, List.reverse_append, hrev,
    List.take_append_eq_append_take, List.take_append_eq_append_take,
    List.take_take, Nat.min_eq_left (Nat.sub_le n m.reverse.length)]

theorem ringExtend_eq_rtake (cap : Nat) (buf xs : List Int)
    (h : buf.length ≤ cap) : ringExtend cap buf xs = (buf ++ xs).rtake cap := by
  induction xs generalizing buf with
  | nil =>
    simpa [ringExtend] using (rtake_of_length_le h).symm
  | cons x xs ih =>
    calc ringExtend cap buf (x :: xs)
        = ringExtend cap (ringAppend cap buf x) xs := rfl
      _ = ((ringAppend cap buf x) ++ xs).rtake cap :=
          ih _ (by rw [ringAppend_eq_rtake]; exact length_rtake_le _ _)
      _ = (((buf ++ [x]).rtake cap) ++ xs).rtake cap := by rw [ringAppend_eq_rtake]
      _ = ((buf ++ [x]) ++ xs).rtake cap := rtake_append_rtake _ _ _
      _ = (buf ++ x :: xs).rtake cap := by simp

/-- Ring-buffer contents after a whole sequence of `extend` calls, starting
from a buffer state known to respect the capacity. -/
theorem ringExtendAll_eq_rtake (cap : Nat) (buf : List Int)
    (chunks : List (List Int)) (h : buf.length ≤ cap) :
    chunks.foldl (ringExtend cap) buf = (buf ++ chunks.flatten).rtake cap := by
  induction chunks generalizing buf with
  | nil => simpa using (rtake_of_length_le h).symm
  | cons c cs ih =>
    calc (c :: cs).foldl (ringExtend cap) buf
        = cs.foldl (ringExtend cap) (ringExtend cap buf c) := rfl
      _ = ((ringExtend cap buf c) ++ cs.flatten).rtake cap :=
          ih _ (by rw [ringExtend_eq_rtake cap buf c h]; exact length_rtake_le _ _)
      _ = (((buf ++ c).rtake cap) ++ cs.flatten).rtake cap := by
          rw [ringExtend_eq_rtake cap buf c h]
      _ = ((buf ++ c) ++ cs.flatten).rtake cap := rtake_append_rtake _ _ _
      _ = (buf ++ (c :: cs).flatten).rtake cap := by simp

/- ------------------------------------------------------------------ -/
/- BufferManager / LivePipeline state                                  -/
/- ------------------------------------------------------------------ -/

/-- The fields of `BufferManager` (src/buffer_manager.py `__init__`,
lines 16-47).  `queue_maxsize` and `ring_cap` are the construction
parameters of the two container objects; `stream_open` stands for the
`audio_stream` handle being a started stream; `workers_spawned` counts
`threading.Thread(...).start()` calls (the `worker_thread` handle). -/
structure BufState where
  audio_queue : List Chunk
  queue_maxsize : Nat
  error_queue : List (String × String)
  ring_buffer : List Int
  ring_cap : Nat
  speech_buffer : List Int
  in_speech : Bool
  total_chunks_received : Nat
  total_chunks_processed : Nat
  is_recording : Bool
  stream_open : Bool
  workers_spawned : Nat
deriving DecidableEq, Repr

/-- State after `BufferManager.__init__` with the default `Config` (empty containers,
zero counters, not recording). -/
def initBuf : BufState :=
  { audio_queue := [], queue_maxsize := queue_maxsize, error_queue := [],
    ring_buffer := [], ring_cap := context_samples, speech_buffer := [],
    in_speech := false, total_chunks_received := 0,
    total_chunks_processed := 0, is_recording := false, stream_open := false,
    workers_spawned := 0 }

/-- The fields of `LivePipeline` that the verified claims reach
(src/pipeline_live.py `__init__`): the owned `BufferManager`, the
`utterance_count` and `total_speech_time` session counters and the
`is_running` flag.  The noise-classification fields
(`last_noise_update`, `current_noise_type`, `noise_history`) and the lazy
transcriber flags are omitted: no claim mentions them and no modelled
operation reads them. -/
structure PipeState where
  bm : BufState
  utterance_count : Nat
  total_speech_time : Rat
  is_running : Bool
deriving DecidableEq, Repr

/-- A freshly constructed `LivePipeline` owning a fresh `BufferManager`. -/
def initPipe : PipeState :=
  { bm := initBuf, utterance_count := 0, total_speech_time := 0,
    is_running := false }

/-- Model of `self.error_queue.put_nowait e` wrapped in `try: ... except: pass`
(the defensive idiom used at every error-channel write in
src/buffer_manager.py): `putOk` says whether the put itself raised; if it
did, the exception is swallowed and the channel is left unchanged. -/
def pushError (p : PipeState) (e : String × String) (putOk : Bool) : PipeState :=
  if putOk then
    { p with bm := { p.bm with error_queue := p.bm.error_queue ++ [e] } }
  else p

/- ------------------------------------------------------------------ -/
/- Speech state machine and utterance buffer (BufferManager methods)   -/
/- ------------------------------------------------------------------ -/

/-- Model of `BufferManager.update_speech_state` (src/buffer_manager.py
lines 190-202): records the new decision, clears the speech buffer and
reports `speech_started` on a rising edge, reports `utterance_complete` on
a falling edge, otherwise reports `no_change`. -/
def updateSpeechState (s : BufState) (is_speech : Bool) : BufState × String :=
  let prev := s.in_speech
  let s1 := { s with in_speech := is_speech }
  if !prev && is_speech then
    ({ s1 with speech_buffer := [] }, "speech_started")
  else if prev && !is_speech then
    (s1, "utterance_complete")
  else
    (s1, "no_change")

/-- Model of `BufferManager.add_to_speech_buffer` (lines 204-205):
`speech_buffer.extend(chunk.tolist())`. -/
def addToSpeechBuffer (s : BufState) (chunk : Chunk) : BufState :=
  { s with speech_buffer := s.speech_buffer ++ chunk }

/-- Model of `BufferManager.get_complete_utterance` (lines 207-211): `None` when the
speech buffer is empty, otherwise a fresh `np.array` copy of its contents;
the buffer itself is left untouched, so the method also returns the
(unchanged) manager state. -/
def getCompleteUtterance (s : BufState) : Option (List Int) × BufState :=
  if s.speech_buffer.length = 0 then (none, s)
  else (some s.speech_buffer, s)

/-- Feeding a whole sequence of boolean speech decisions through
`update_speech_state`, collecting the returned event strings. -/
def runSpeech (s : BufState) : List Bool → BufState × List String
  | [] => (s, [])
  | d :: ds =>
    let r := updateSpeechState s d
    let rest := runSpeech r.1 ds
    (rest.1, r.2 :: rest.2)

/-- Number of rising edges (entries into speech) of a decision sequence,
seen from a previous decision `prev`. -/
def upEdges : Bool → List Bool → Nat
  | _, [] => 0
  | prev, d :: ds => (if !prev && d then 1 else 0) + upEdges d ds

/-- Number of falling edges (exits from speech) of a decision sequence. -/
def downEdges : Bool → List Bool → Nat
  | _, [] => 0
  | prev, d :: ds => (if prev && !d then 1 else 0) + downEdges d ds

/- ------------------------------------------------------------------ -/
/- The capture callback (_audio_callback) with explicit fault model    -/
/- ------------------------------------------------------------------ -/

/-- The downstream `process_callback` as the capture path and the worker
loop see it: it receives `chunk.flatten()` and the ring-buffer snapshot,
may mutate the whole session object (in the live pipeline it is
`LivePipeline._process_chunk`, which reaches speech state, buffers and
counters), and may raise — the raised exception text is the `Option
String` component of the result, with the mutations made before the raise
kept, as in Python. -/
def Cb : Type := Chunk → List Int → PipeState → PipeState × Option String

/-- Which of the fallible steps inside `_audio_callback` raise on this
invocation, and whether each defensive error-channel put itself succeeds:
`statusMsg` is the stream status flag (line 55), `copyExc` an exception
from `indata.copy()` (line 61), `warnExc` one from `logger.warning` in the
`queue.Full` branch (line 68), `ctxExc` one from building the context
array (line 75). -/
structure CaptureBehavior where
  statusMsg : Option String
  statusPutOk : Bool
  copyExc : Option String
  warnExc : Option String
  ctxExc : Option String
  cbErrPutOk : Bool
  fatalPutOk : Bool
deriving Repr

/-- The all-benign behaviour: no status flag, nothing raises. -/
def okCapture : CaptureBehavior :=
  { statusMsg := none, statusPutOk := true, copyExc := none, warnExc := none,
    ctxExc := none, cbErrPutOk := true, fatalPutOk := true }

/-- Body of `_audio_callback` (src/buffer_manager.py lines 54-81), i.e.
everything inside the outer `try`.  Returns the session state as mutated so
far, the number of times `process_callback` was invoked on this path, and
`some e` when an exception `e` escapes the body (to be caught by the outer
handler).  Control flow step by step: record a status flag on the error
channel (swallowing a failing put); copy the chunk; `put_nowait` it — on
`queue.Full` log a warning and return; then, if a callback is registered,
build the context and invoke it inline, recording a raise on the error
channel. -/
def audioCallbackBody (p : PipeState) (indata : Chunk) (cb : Option Cb)
    (b : CaptureBehavior) : PipeState × Nat × Option String :=
  let p0 := match b.statusMsg with
    | some st => pushError p ("audio_status", st) b.statusPutOk
    | none => p
  match b.copyExc with
  | some e => (p0, 0, some e)
  | none =>
    let chunk := indata
    match putNowait p0.bm.queue_maxsize p0.bm.audio_queue chunk with
    | none =>
      match b.warnExc with
      | some e => (p0, 0, some e)
      | none => (p0, 0, none)
    | some q =>
      let bm1 := { p0.bm with
        audio_queue := q
        total_chunks_received := p0.bm.total_chunks_received + 1 }
      let p1 := { p0 with bm := bm1 }
      match cb with
      | none => (p1, 0, none)
      | some f =>
        match b.ctxExc with
        | some e => (pushError p1 ("audio_callback", e) b.cbErrPutOk, 0, none)
        | none =>
          let r := f chunk p1.bm.ring_buffer p1
          match r.2 with
          | none => (r.1, 1, none)
          | some e => (pushError r.1 ("audio_callback", e) b.cbErrPutOk, 1, none)

/-- Model of `_audio_callback` in full (lines 52-87): the body guarded by the outer
`except Exception` handler, which best-effort records the fault as
`audio_callback_FATAL` and swallows it.  The result is `Except` so that a
propagated exception would be visible as `.error`; the invocation count of
`process_callback` is carried along. -/
def audioCallbackExc (p : PipeState) (indata : Chunk) (cb : Option Cb)
    (b : CaptureBehavior) : Except String (PipeState × Nat) :=
  match audioCallbackBody p indata cb b with
  | (p1, n, none) => Except.ok (p1, n)
  | (p1, n, some e) =>
      Except.ok (pushError p1 ("audio_callback_FATAL", e) b.fatalPutOk, n)

/- ------------------------------------------------------------------ -/
/- The worker loop body (_processing_loop) with explicit fault model   -/
/- ------------------------------------------------------------------ -/

/-- Fault pattern for one iteration of the worker loop: `ringExc` an
exception from `ring_buffer.extend(chunk.flatten())` (line 100), `ctxExc`
one from building the context array (line 111), each with the success flag
of the corresponding defensive error-channel put. -/
structure WorkerBehavior where
  ringExc : Option String
  ringErrPutOk : Bool
  ctxExc : Option String
  cbErrPutOk : Bool
deriving Repr

/-- The all-benign worker behaviour. -/
def okWorker : WorkerBehavior :=
  { ringExc := none, ringErrPutOk := true, ctxExc := none, cbErrPutOk := true }

/-- One iteration of `_processing_loop` after a chunk has been popped
(src/buffer_manager.py lines 96-119): extend the ring buffer (a raise is
recorded as `processing_ringbuffer` and swallowed); if a callback is
registered, build the context and invoke it (a raise is recorded as
`processing_callback` and swallowed); finally increment
`total_chunks_processed` unconditionally. -/
def processOneChunk (p : PipeState) (chunk : Chunk) (cb : Option Cb)
    (b : WorkerBehavior) : PipeState :=
  let p1 := match b.ringExc with
    | some _ =>
        pushError p ("processing_ringbuffer", "failed to extend ring buffer")
          b.ringErrPutOk
    | none =>
        { p with bm := { p.bm with
            ring_buffer := ringExtend p.bm.ring_cap p.bm.ring_buffer chunk } }
  let p2 := match cb with
    | none => p1
    | some f =>
      match b.ctxExc with
      | some e => pushError p1 ("processing_callback", e) b.cbErrPutOk
      | none =>
        let r := f chunk p1.bm.ring_buffer p1
        match r.2 with
        | none => r.1
        | some e => pushError r.1 ("processing_callback", e) b.cbErrPutOk
  { p2 with bm := { p2.bm with
      total_chunks_processed := p2.bm.total_chunks_processed + 1 } }

/-- The worker draining a sequence of already-popped chunks, each with its
own fault pattern. -/
def runWorker (p : PipeState) (cb : Option Cb)
    (items : List (Chunk × WorkerBehavior)) : PipeState :=
  items.foldl (fun st it => processOneChunk st it.1 cb it.2) p

/- ------------------------------------------------------------------ -/
/- Session lifecycle (start_recording / stop_recording / LivePipeline) -/
/- ------------------------------------------------------------------ -/

/-- Model of `BufferManager.start_recording` (lines 132-158).  `openExc` is the
behaviour of opening and starting the `sd.InputStream`: `none` means it
succeeds, `some e` that it raises `e`.  Already recording: immediate
return.  Otherwise the flag is set, the stream is opened — on failure the
flag is reset and a `RuntimeError` with the formatted message propagates to
the caller — and on success the worker thread is spawned. -/
def startRecording (s : BufState) (openExc : Option String) :
    Except String Unit × BufState :=
  if s.is_recording then (Except.ok (), s)
  else
    let s1 := { s with is_recording := true }
    match openExc with
    | some e =>
        (Except.error ("Failed to start microphone stream: " ++ e),
         { s1 with is_recording := false })
    | none =>
        let s2 := { s1 with stream_open := true }
        (Except.ok (), { s2 with workers_spawned := s2.workers_spawned + 1 })

/-- Model of `BufferManager.stop_recording` (lines 160-185): no-op when already
stopped; otherwise clears the flag and closes the stream (the worker join
has no state effect). -/
def stopRecording (s : BufState) : BufState :=
  if !s.is_recording then s
  else { s with is_recording := false, stream_open := false }

/- ------------------------------------------------------------------ -/
/- LivePipeline: the concrete process_callback and lifecycle           -/
/- ------------------------------------------------------------------ -/

/-- Model of `LivePipeline._process_utterance` (src/pipeline_live.py lines 157-203),
restricted to its state effect: fetch the completed utterance from the
buffer manager; return early when it is absent or shorter than
`sample_rate * 0.3` samples; otherwise count it and add its duration
(`len(utterance) / sample_rate` seconds) to the cumulative speech time.
Transcription itself is an external collaborator with no effect on the
modelled fields, and the printing is ignored. -/
def processUtterance (p : PipeState) : PipeState :=
  let r := getCompleteUtterance p.bm
  let p1 := { p with bm := r.2 }
  match r.1 with
  | none => p1
  | some u =>
    if mkRat u.length 1 < min_utterance_samples then p1
    else
      { p1 with
        utterance_count := p1.utterance_count + 1
        total_speech_time := p1.total_speech_time + mkRat u.length sample_rate }

/-- Model of `LivePipeline._process_chunk` (src/pipeline_live.py lines 88-110), with
the external VAD collaborator's output supplied as the speech probability
`prob` for this chunk: step the speech state machine on `prob > 0.5`,
append the chunk to the speech buffer while speech is active, and run
`_process_utterance` when the machine reports `utterance_complete`.  The
time-gated noise-classification branch touches only the omitted noise
fields and is dropped from the model. -/
def processChunkPipeline (p : PipeState) (chunk : Chunk) (prob : Rat) :
    PipeState :=
  let isSp : Bool := decide (mkRat 1 2 < prob)
  let su := updateSpeechState p.bm isSp
  let p1 := { p with bm := su.1 }
  let p2 := if isSp then { p1 with bm := addToSpeechBuffer p1.bm chunk } else p1
  if su.2 = "utterance_complete" then processUtterance p2 else p2

/-- The method `_process_chunk` packaged as the `process_callback` the buffer manager
invokes; it never raises (it has its own catch-all, lines 109-110). -/
def pipeCb (prob : Rat) : Cb :=
  fun chunk _ctx p => (processChunkPipeline p chunk prob, none)

/-- The benign-path capture callback of the live session: `_audio_callback`
with `process_callback = LivePipeline._process_chunk` and no incidental
faults.  On `queue.Full` the chunk is dropped; on success the chunk is
enqueued, `total_chunks_received` incremented, and — as the source does on
lines 72-81 — `_process_chunk` is additionally invoked inline from the
capture path. -/
def captureStep (p : PipeState) (c : Chunk) (prob : Rat) : PipeState :=
  match putNowait p.bm.queue_maxsize p.bm.audio_queue c with
  | none => p
  | some q =>
    let bm1 := { p.bm with
      audio_queue := q
      total_chunks_received := p.bm.total_chunks_received + 1 }
    processChunkPipeline { p with bm := bm1 } c prob

/-- One benign-path worker iteration of the live session: pop the oldest
queued chunk (none available: the `queue.Empty` branch, a pure re-check of
the running flag) and handle it with `processOneChunk`, the callback being
`_process_chunk`. -/
def workerStep (p : PipeState) (prob : Rat) : PipeState :=
  match p.bm.audio_queue with
  | [] => p
  | chunk :: rest =>
      processOneChunk { p with bm := { p.bm with audio_queue := rest } }
        chunk (some (pipeCb prob)) okWorker

/-- Model of `LivePipeline.start` (src/pipeline_live.py lines 205-256), restricted
to its state effect before the blocking wait loop: set the running flag,
reset `utterance_count` and `total_speech_time` (lines 235-238), then call
`BufferManager.start_recording`. -/
def pipelineStart (p : PipeState) (openExc : Option String) :
    Except String Unit × PipeState :=
  let p1 := { p with
    is_running := true
    utterance_count := 0
    total_speech_time := 0 }
  let r := startRecording p1.bm openExc
  (r.1, { p1 with bm := r.2 })

/-- Model of `LivePipeline.stop` (lines 258-292), restricted to its state effect:
no-op when not running, otherwise clear the flag and stop the recording
(the summary printing reads counters but mutates nothing). -/
def pipelineStop (p : PipeState) : PipeState :=
  if !p.is_running then p
  else { p with is_running := false, bm := stopRecording p.bm }

/-- The observable operations of one live session, with each external
collaborator outcome (VAD probability, stream-open result) supplied as
data: a capture-callback invocation, a worker-loop iteration, `start`, and
`stop`. -/
inductive SessionOp where
  | capture (c : Chunk) (prob : Rat)
  | worker (prob : Rat)
  | start (openExc : Option String)
  | stop

/-- Apply one session operation to the pipeline state. -/
def applyOp (p : PipeState) : SessionOp → PipeState
  | .capture c prob => captureStep p c prob
  | .worker prob => workerStep p prob
  | .start oe => (pipelineStart p oe).2
  | .stop => pipelineStop p

/-- Whether a session operation is a `start`. -/
def SessionOp.isStart : SessionOp → Bool
  | .start _ => true
  | _ => false

/- ------------------------------------------------------------------ -/
/- Helper lemmas                                                       -/
/- ------------------------------------------------------------------ -/

theorem updateSpeechState_in_speech (s : BufState) (d : Bool) :
    (updateSpeechState s d).1.in_speech = d := by
  unfold updateSpeechState
  dsimp only
  split
  · rfl
  · split <;> rfl

theorem updateSpeechState_event (s : BufState) (d : Bool) :
    (updateSpeechState s d).2 =
      (if !s.in_speech && d then "speech_started"
       else if s.in_speech && !d then "utterance_complete" else "no_change") := by
  unfold updateSpeechState
  dsimp only
  split
  · rfl
  · split <;> rfl

theorem updateSpeechState_received (s : BufState) (d : Bool) :
    (updateSpeechState s d).1.total_chunks_received = s.total_chunks_received := by
  unfold updateSpeechState
  dsimp only
  split
  · rfl
  · split <;> rfl

theorem updateSpeechState_processed (s : BufState) (d : Bool) :
    (updateSpeechState s d).1.total_chunks_processed = s.total_chunks_processed := by
  unfold updateSpeechState
  dsimp only
  split
  · rfl
  · split <;> rfl

theorem updateSpeechState_idle_false (s : BufState) (h : s.in_speech = false) :
    updateSpeechState s false = (s, "no_change") := by
  cases s; subst h; rfl

theorem updateSpeechState_idle_true (s : BufState) (h : s.in_speech = false) :
    updateSpeechState s true =
      ({ s with in_speech := true, speech_buffer := [] }, "speech_started") := by
  cases s; subst h; rfl

theorem updateSpeechState_speech_true (s : BufState) (h : s.in_speech = true) :
    updateSpeechState s true = (s, "no_change") := by
  cases s; subst h; rfl

theorem updateSpeechState_speech_false (s : BufState) (h : s.in_speech = true) :
    updateSpeechState s false =
      ({ s with in_speech := false }, "utterance_complete") := by
  cases s; subst h; rfl

theorem processUtterance_bm (p : PipeState) : (processUtterance p).bm = p.bm := by
  unfold processUtterance getCompleteUtterance
  by_cases h : p.bm.speech_buffer.length = 0
  · simp [h]
  · simp only [if_neg h]
    split <;> rfl

theorem processUtterance_count_le (p : PipeState) :
    p.utterance_count ≤ (processUtterance p).utterance_count := by
  unfold processUtterance getCompleteUtterance
  by_cases h : p.bm.speech_buffer.length = 0
  · simp [h]
  · simp only [if_neg h]
    split
    · exact Nat.le_refl _
    · exact Nat.le_succ _

theorem processUtterance_time_le (p : PipeState) :
    p.total_speech_time ≤ (processUtterance p).total_speech_time := by
  unfold processUtterance getCompleteUtterance
  by_cases h : p.bm.speech_buffer.length = 0
  · simp [h]
  · simp only [if_neg h]
    split
    · exact le_refl _
    · have hnn : (0 : Rat) ≤ mkRat p.bm.speech_buffer.length sample_rate := by
        rw [Rat.mkRat_eq_div]
        positivity
      exact le_add_of_nonneg_right hnn

theorem processChunkPipeline_received (p : PipeState) (c : Chunk) (prob : Rat) :
    (processChunkPipeline p c prob).bm.total_chunks_received =
      p.bm.total_chunks_received := by
  unfold processChunkPipeline
  dsimp only
  split
  · rw [processUtterance_bm]
    split <;> simp [addToSpeechBuffer, updateSpeechState_received]
  · split <;> simp [addToSpeechBuffer, updateSpeechState_received]

theorem processChunkPipeline_processed (p : PipeState) (c : Chunk) (prob : Rat) :
    (processChunkPipeline p c prob).bm.total_chunks_processed =
      p.bm.total_chunks_processed := by
  unfold processChunkPipeline
  dsimp only
  split
  · rw [processUtterance_bm]
    split <;> simp [addToSpeechBuffer, updateSpeechState_processed]
  · split <;> simp [addToSpeechBuffer, updateSpeechState_processed]

theorem processChunkPipeline_count_le (p : PipeState) (c : Chunk) (prob : Rat) :
    p.utterance_count ≤ (processChunkPipeline p c prob).utterance_count := by
  unfold processChunkPipeline
  dsimp only
  split
  · refine le_trans ?_ (processUtterance_count_le _)
    split <;> exact Nat.le_refl _
  · split <;> exact Nat.le_refl _

theorem processChunkPipeline_time_le (p : PipeState) (c : Chunk) (prob : Rat) :
    p.total_speech_time ≤ (processChunkPipeline p c prob).total_speech_time := by
  unfold processChunkPipeline
  dsimp only
  split
  · refine le_trans ?_ (processUtterance_time_le _)
    split <;> exact le_refl _
  · split <;> exact le_refl _

theorem processChunkPipeline_count_le_of_eq (p q : PipeState) (c : Chunk)
    (prob : Rat) (h : q.utterance_count = p.utterance_count) :
    p.utterance_count ≤ (processChunkPipeline q c prob).utterance_count :=
  h ▸ processChunkPipeline_count_le q c prob

theorem processChunkPipeline_time_le_of_eq (p q : PipeState) (c : Chunk)
    (prob : Rat) (h : q.total_speech_time = p.total_speech_time) :
    p.total_speech_time ≤ (processChunkPipeline q c prob).total_speech_time :=
  h ▸ processChunkPipeline_time_le q c prob

theorem pushError_received (p : PipeState) (e : String × String) (ok : Bool) :
    (pushError p e ok).bm.total_chunks_received = p.bm.total_chunks_received := by
  unfold pushError
  split <;> rfl

theorem pushError_processed (p : PipeState) (e : String × String) (ok : Bool) :
    (pushError p e ok).bm.total_chunks_processed = p.bm.total_chunks_processed := by
  unfold pushError
  split <;> rfl

theorem pushError_count (p : PipeState) (e : String × String) (ok : Bool) :
    (pushError p e ok).utterance_count = p.utterance_count := by
  unfold pushError
  split <;> rfl

theorem pushError_time (p : PipeState) (e : String × String) (ok : Bool) :
    (pushError p e ok).total_speech_time = p.total_speech_time := by
  unfold pushError
  split <;> rfl

theorem startRecording_received (s : BufState) (oe : Option String) :
    (startRecording s oe).2.total_chunks_received = s.total_chunks_received := by
  unfold startRecording
  split
  · rfl
  · split <;> rfl

theorem startRecording_processed (s : BufState) (oe : Option String) :
    (startRecording s oe).2.total_chunks_processed = s.total_chunks_processed := by
  unfold startRecording
  split
  · rfl
  · split <;> rfl

theorem runSpeech_counts (s : BufState) (ds : List Bool) :
    ((runSpeech s ds).2.count "speech_started") = upEdges s.in_speech ds ∧
    ((runSpeech s ds).2.count "utterance_complete") = downEdges s.in_speech ds := by
  induction ds generalizing s with
  | nil => simp [runSpeech, upEdges, downEdges]
  | cons d ds ih =>
    have hev := updateSpeechState_event s d
    have hin := updateSpeechState_in_speech s d
    have hrun : runSpeech s (d :: ds) =
        ((runSpeech (updateSpeechState s d).1 ds).1,
         (updateSpeechState s d).2 :: (runSpeech (updateSpeechState s d).1 ds).2) := rfl
    obtain ⟨ih1, ih2⟩ := ih ((updateSpeechState s d).1)
    rw [hrun]
    constructor
    · show ((updateSpeechState s d).2 ::
        (runSpeech (updateSpeechState s d).1 ds).2).count "speech_started" = _
      rw [List.count_cons, ih1, hin, hev]
      by_cases h1 : s.in_speech <;> by_cases h2 : d <;>
        simp [upEdges, h1, h2, Nat.add_comm]
    · show ((updateSpeechState s d).2 ::
        (runSpeech (updateSpeechState s d).1 ds).2).count "utterance_complete" = _
      rw [List.count_cons, ih2, hin, hev]
      by_cases h1 : s.in_speech <;> by_cases h2 : d <;>
        simp [downEdges, h1, h2, Nat.add_comm]

/- ------------------------------------------------------------------ -/
/- Claim theorems                                                      -/
/- ------------------------------------------------------------------ -/

/-- C4: from any state of `update_speech_state` the step follows the
transition table — Idle+false stays Idle with `no_change`; Idle+true enters
InSpeech emitting `speech_started` and clearing the utterance buffer;
InSpeech+true stays with `no_change`; InSpeech+false returns to Idle
emitting `utterance_complete` — and over any decision sequence the number
of `speech_started` events equals the number of entries into speech and the
number of `utterance_complete` events equals the number of exits (one per
following `false`); `no_change` carries no event. -/
theorem C4_speech_state_machine :
    (∀ s : BufState, s.in_speech = false →
        updateSpeechState s false = (s, "no_change")) ∧
    (∀ s : BufState, s.in_speech = false →
        updateSpeechState s true =
          ({ s with in_speech := true, speech_buffer := [] }, "speech_started")) ∧
    (∀ s : BufState, s.in_speech = true →
        updateSpeechState s true = (s, "no_change")) ∧
    (∀ s : BufState, s.in_speech = true →
        updateSpeechState s false =
          ({ s with in_speech := false }, "utterance_complete")) ∧
    (∀ (s : BufState) (ds : List Bool),
        (runSpeech s ds).2.count "speech_started" = upEdges s.in_speech ds ∧
        (runSpeech s ds).2.count "utterance_complete" = downEdges s.in_speech ds) := by
  refine ⟨?_, ?_, ?_, ?_, fun s ds => runSpeech_counts s ds⟩
  · intro s h; cases s; subst h; rfl
  · intro s h; cases s; subst h; rfl
  · intro s h; cases s; subst h; rfl
  · intro s h; cases s; subst h; rfl

/-- Witness for C4 at concrete inputs: one step from Idle on `false`, and
the five-decision scenario of the spec emitting exactly one
`speech_started` and one `utterance_complete`. -/
theorem C4_speech_state_machine_witness :
    updateSpeechState initBuf false = (initBuf, "no_change") ∧
    (runSpeech initBuf [false, true, true, true, false]).2.count "speech_started" = 1 ∧
    (runSpeech initBuf [false, true, true, true, false]).2.count "utterance_complete" = 1 := by
  refine ⟨C4_speech_state_machine.1 initBuf rfl, ?_, ?_⟩
  · rw [(C4_speech_state_machine.2.2.2.2 initBuf [false, true, true, true, false]).1]
    decide
  · rw [(C4_speech_state_machine.2.2.2.2 initBuf [false, true, true, true, false]).2]
    decide

/-- C6: for every capacity and every sequence of `extend` calls starting
from the empty ring buffer, the buffer length never exceeds the capacity
and the contents are exactly the most recent `cap` appended samples in
insertion order (the oldest evicted first); the configured capacity is
`context_duration * sample_rate = 48000` samples, which is the capacity the
`BufferManager` constructor passes to the deque. -/
theorem C6_ring_buffer_most_recent :
    (∀ (cap : Nat) (chunks : List (List Int)),
        (chunks.foldl (ringExtend cap) []).length ≤ cap ∧
        chunks.foldl (ringExtend cap) [] = chunks.flatten.rtake cap) ∧
    context_samples = 48000 ∧ initBuf.ring_cap = context_samples := by
  refine ⟨fun cap chunks => ?_, ?_, rfl⟩
  · have h := ringExtendAll_eq_rtake cap [] chunks (by simp)
    constructor
    · rw [h]
      simpa using length_rtake_le cap ([] ++ chunks.flatten)
    · simpa using h
  · rfl

/-- C8: when the capture stream cannot be opened, `start_recording` raises
the formatted failure to its caller and leaves the session stopped — the
recording flag is false and the state (in particular the number of spawned
worker threads) is exactly as before; on an already-running session any
`start_recording` call is a no-op; and a successful open sets the flag,
opens the stream and spawns exactly one worker. -/
theorem C8_start_failure_surfaced :
    (∀ (s : BufState) (e : String), s.is_recording = false →
        startRecording s (some e) =
          (Except.error ("Failed to start microphone stream: " ++ e), s)) ∧
    (∀ (s : BufState) (oe : Option String), s.is_recording = true →
        startRecording s oe = (Except.ok (), s)) ∧
    (∀ s : BufState, s.is_recording = false →
        startRecording s none =
          (Except.ok (),
           { s with
              is_recording := true
              stream_open := true
              workers_spawned := s.workers_spawned + 1 })) := by
  refine ⟨?_, ?_, ?_⟩
  · intro s e h; cases s; subst h; rfl
  · intro s oe h; cases s; subst h; cases oe <;> rfl
  · intro s h; cases s; subst h; rfl

/-- Witness for C8 at a fresh manager: a failing open returns the error and
the unchanged state. -/
theorem C8_start_failure_surfaced_witness :
    startRecording initBuf (some "dev busy") =
      (Except.error ("Failed to start microphone stream: " ++ "dev busy"), initBuf) :=
  C8_start_failure_surfaced.1 initBuf "dev busy" rfl

/-- C10: the method `get_complete_utterance` is a pure read — it returns `None`
exactly when the speech buffer is empty and otherwise a copy of the
buffer contents, it leaves the manager state unchanged, and a second
consecutive call returns the same result. -/
theorem C10_get_utterance_pure_read :
    ∀ s : BufState,
      ((getCompleteUtterance s).1 = none ↔ s.speech_buffer = []) ∧
      (s.speech_buffer ≠ [] →
        (getCompleteUtterance s).1 = some s.speech_buffer) ∧
      (getCompleteUtterance s).2 = s ∧
      getCompleteUtterance ((getCompleteUtterance s).2) = getCompleteUtterance s := by
  intro s
  by_cases h : s.speech_buffer.length = 0
  · have hb : s.speech_buffer = [] := List.length_eq_zero.mp h
    refine ⟨?_, ?_, ?_, ?_⟩ <;> simp [getCompleteUtterance, h, hb]
  · have hb : s.speech_buffer ≠ [] := fun e => h (by simp [e])
    refine ⟨?_, ?_, ?_, ?_⟩ <;> simp [getCompleteUtterance, h, hb]

/-- Witness for C10 on a buffer holding two samples. -/
theorem C10_get_utterance_pure_read_witness :
    (getCompleteUtterance { initBuf with speech_buffer := [3, 4] }).1 = some [3, 4] :=
  (C10_get_utterance_pure_read { initBuf with speech_buffer := [3, 4] }).2.1 (by decide)

theorem tryPush_queue_le (m : Nat) (st : PushCounters) (c : Chunk)
    (hm : 0 < m) (h : st.queue.length ≤ m) : (tryPush m st c).queue.length ≤ m := by
  unfold tryPush putNowait
  by_cases hf : 0 < m ∧ m ≤ st.queue.length
  · simp only [if_pos hf]
    exact h
  · have hlt : st.queue.length < m := by
      rcases Nat.lt_or_ge st.queue.length m with h1 | h1
      · exact h1
      · exact absurd ⟨hm, h1⟩ hf
    simp only [if_neg hf]
    simpa using hlt

theorem pushMany_queue_le (m : Nat) (cs : List Chunk) (st : PushCounters)
    (hm : 0 < m) (h : st.queue.length ≤ m) :
    (pushMany m st cs).queue.length ≤ m := by
  induction cs generalizing st with
  | nil => exact h
  | cons c cs ih => exact ih _ (tryPush_queue_le m st c hm h)

theorem pushError_queue (p : PipeState) (e : String × String) (ok : Bool) :
    (pushError p e ok).bm.audio_queue = p.bm.audio_queue := by
  unfold pushError
  split <;> rfl

theorem pushError_maxsize (p : PipeState) (e : String × String) (ok : Bool) :
    (pushError p e ok).bm.queue_maxsize = p.bm.queue_maxsize := by
  unfold pushError
  split <;> rfl

/-- C1 (amended): the queue length never exceeds the configured capacity
100 and pushes are never blocking — a push onto a full queue is rejected
leaving the queue, the received counter (and every other field) unchanged,
while a push onto a non-full queue appends the chunk and increments the
received counter — and pushing 120 chunks with no consumer draining leaves
exactly the first 100 enqueued, the received counter at 100 and exactly 20
pushes rejected.  (The code maintains no dropped-chunk counter: the
rejection count is a ghost quantity of the model; the source only logs.) -/
theorem C1_bounded_queue_push :
    (∀ cs : List Chunk, (pushMany 100 ⟨[], 0, 0⟩ cs).queue.length ≤ 100) ∧
    (∀ (m : Nat) (st : PushCounters) (c : Chunk), 0 < m → m ≤ st.queue.length →
        tryPush m st c = ⟨st.queue, st.received, st.rejected_ghost + 1⟩) ∧
    (∀ (m : Nat) (st : PushCounters) (c : Chunk),
        ¬(0 < m ∧ m ≤ st.queue.length) →
        tryPush m st c = ⟨st.queue ++ [c], st.received + 1, st.rejected_ghost⟩) ∧
    pushMany 100 ⟨[], 0, 0⟩ (List.replicate 120 [5]) =
      ⟨List.replicate 100 [5], 100, 20⟩ := by
  refine ⟨fun cs => pushMany_queue_le 100 cs _ (by decide) (by decide),
    ?_, ?_, by set_option maxRecDepth 10000 in decide⟩
  · intro m st c hm hf
    unfold tryPush putNowait
    rw [if_pos ⟨hm, hf⟩]
  · intro m st c hf
    unfold tryPush putNowait
    rw [if_neg hf]

/-- Witness for C1 at concrete inputs: a full queue of capacity 1 rejects,
a non-full queue of capacity 2 accepts. -/
theorem C1_bounded_queue_push_witness :
    tryPush 1 ⟨[[0]], 3, 4⟩ [9] = ⟨[[0]], 3, 5⟩ ∧
    tryPush 2 ⟨[[0]], 3, 4⟩ [9] = ⟨[[0], [9]], 4, 4⟩ :=
  ⟨C1_bounded_queue_push.2.1 1 ⟨[[0]], 3, 4⟩ [9] (by decide) (by decide),
   C1_bounded_queue_push.2.2.1 2 ⟨[[0]], 3, 4⟩ [9] (by decide)⟩

/-- A live-session state whose bounded queue is exactly full: 100 queued
chunks against the configured capacity of 100. -/
def fullQueuePipe : PipeState :=
  { initPipe with bm := { initBuf with audio_queue := List.replicate 100 [0] } }

/-- C1 counterexample to the claim as stated: a capture-callback push onto
the full queue returns with the session state bitwise unchanged — there is
no dropped-chunk counter in the code and nothing is incremented on a
rejected push (the received counter is still 0 here as well). -/
theorem C1_no_dropped_counter :
    audioCallbackExc fullQueuePipe [5] none okCapture =
      Except.ok (fullQueuePipe, 0) ∧
    fullQueuePipe.bm.total_chunks_received = 0 :=
  ⟨rfl, rfl⟩

/-- C2: the code evaluated at one successfully pushed chunk with the live
pipeline's callback registered.  The capture callback itself invokes the
processing callback (invocation count 1, and the speech buffer already
holds the chunk before any worker iteration), and after the worker loop
handles the same chunk the callback has run a second time — the speech
buffer holds the chunk twice although exactly one chunk was received. -/
theorem C2_dual_callback_invocation :
    audioCallbackExc initPipe [7] (some (pipeCb 1)) okCapture =
      Except.ok (captureStep initPipe [7] 1, 1) ∧
    (captureStep initPipe [7] 1).bm.speech_buffer = [7] ∧
    (workerStep (captureStep initPipe [7] 1) 1).bm.speech_buffer = [7, 7] ∧
    (workerStep (captureStep initPipe [7] 1) 1).bm.total_chunks_received = 1 :=
  ⟨rfl, rfl, rfl, rfl⟩

/-- A downstream callback that always raises `e` without touching state. -/
def raiseCb (e : String) : Cb := fun _ _ p => (p, some e)

/-- C3: for every session state, input chunk, registered callback and fault
behaviour — the callback may mutate the whole session and raise, and every
error-channel put may itself raise — `_audio_callback` returns normally, so
no exception ever propagates to the audio subsystem; and when the callback
raises while the error-channel put succeeds, the fault is recorded on the
error channel. -/
theorem C3_capture_never_raises :
    (∀ (p : PipeState) (indata : Chunk) (cb : Option Cb) (b : CaptureBehavior),
        ∃ r, audioCallbackExc p indata cb b = Except.ok r) ∧
    (∀ (p : PipeState) (indata : Chunk) (e : String) (b : CaptureBehavior),
        ¬(0 < p.bm.queue_maxsize ∧ p.bm.queue_maxsize ≤ p.bm.audio_queue.length) →
        b.copyExc = none → b.ctxExc = none → b.cbErrPutOk = true →
        ∃ r, audioCallbackExc p indata (some (raiseCb e)) b = Except.ok r ∧
          ("audio_callback", e) ∈ r.1.bm.error_queue) := by
  constructor
  · intro p indata cb b
    rcases hb : audioCallbackBody p indata cb b with ⟨p1, n, oe⟩
    cases oe with
    | none =>
        exact ⟨(p1, n), by unfold audioCallbackExc; rw [hb]⟩
    | some e =>
        exact ⟨(pushError p1 ("audio_callback_FATAL", e) b.fatalPutOk, n),
          by unfold audioCallbackExc; rw [hb]⟩
  · intro p indata e b hq hcopy hctx hput
    unfold audioCallbackExc audioCallbackBody raiseCb putNowait
    rw [hcopy, hctx]
    cases hsm : b.statusMsg with
    | none =>
        dsimp only
        rw [if_neg hq]
        refine ⟨_, rfl, ?_⟩
        simp [pushError, hput]
    | some st =>
        dsimp only
        have hq' : ¬(0 < (pushError p ("audio_status", st) b.statusPutOk).bm.queue_maxsize ∧
            (pushError p ("audio_status", st) b.statusPutOk).bm.queue_maxsize ≤
              (pushError p ("audio_status", st) b.statusPutOk).bm.audio_queue.length) := by
          rw [pushError_maxsize, pushError_queue]
          exact hq
        rw [if_neg hq']
        refine ⟨_, rfl, ?_⟩
        simp [pushError, hput]

/-- Witness for C3 on a fresh session with a callback that raises: the
callback returns normally and the fault is on the error channel. -/
theorem C3_capture_never_raises_witness :
    ∃ r, audioCallbackExc initPipe [1] (some (raiseCb "boom")) okCapture =
        Except.ok r ∧ ("audio_callback", "boom") ∈ r.1.bm.error_queue :=
  C3_capture_never_raises.2 initPipe [1] "boom" okCapture (by decide) rfl rfl rfl

/-- The three-step live run used for C5: one speech chunk (probability 1),
then two silent chunks (probability 0). -/
def c5run : PipeState :=
  processChunkPipeline
    (processChunkPipeline (processChunkPipeline initPipe [1] 1) [1] 0) [1] 0

/-- C5 counterexample: after the final silent step — a step that reported
`no_change`, i.e. neither a transition nor a finalisation tick — the session
is Idle yet the utterance buffer still holds the handed-off utterance [1]:
the buffer is not cleared after hand-off, so it is non-empty outside
InSpeech and outside the single transition tick. -/
theorem C5_buffer_retained_after_handoff :
    c5run.bm.in_speech = false ∧
    (updateSpeechState
        (processChunkPipeline (processChunkPipeline initPipe [1] 1) [1] 0).bm
        false).2 = "no_change" ∧
    c5run.bm.speech_buffer = [1] :=
  ⟨rfl, rfl, rfl⟩

/-- C5 (amended): the utterance buffer is created empty on entering
InSpeech — a step from Idle with a speech decision leaves the buffer
holding exactly the new chunk, and a step from Idle with a silence decision
leaves it unchanged — but it is not cleared immediately after hand-off: the
finalising InSpeech→Idle step leaves the handed-off contents in the buffer,
where they remain until the next entry into speech. -/
theorem C5_buffer_cleared_on_entry :
    (∀ (p : PipeState) (c : Chunk) (prob : Rat), p.bm.in_speech = false →
        mkRat 1 2 < prob →
        (processChunkPipeline p c prob).bm.speech_buffer = c) ∧
    (∀ (p : PipeState) (c : Chunk) (prob : Rat), p.bm.in_speech = false →
        ¬(mkRat 1 2 < prob) →
        (processChunkPipeline p c prob).bm.speech_buffer = p.bm.speech_buffer) ∧
    (∀ (p : PipeState) (c : Chunk) (prob : Rat), p.bm.in_speech = true →
        ¬(mkRat 1 2 < prob) →
        (processChunkPipeline p c prob).bm.speech_buffer = p.bm.speech_buffer) := by
  refine ⟨?_, ?_, ?_⟩
  · intro p c prob h hp
    unfold processChunkPipeline
    dsimp only
    rw [decide_eq_true hp, updateSpeechState_idle_true p.bm h]
    dsimp only
    rw [if_pos rfl, if_neg (by decide)]
    simp [addToSpeechBuffer]
  · intro p c prob h hp
    unfold processChunkPipeline
    dsimp only
    rw [decide_eq_false hp, updateSpeechState_idle_false p.bm h]
    dsimp only
    rw [if_neg (by decide), if_neg (by decide)]
  · intro p c prob h hp
    unfold processChunkPipeline
    dsimp only
    rw [decide_eq_false hp, updateSpeechState_speech_false p.bm h]
    dsimp only
    rw [if_pos rfl, processUtterance_bm, if_neg (by decide)]

/-- Witness for C5 at concrete inputs: entering speech stores exactly the
new chunk; the finalising silent step keeps the buffer. -/
theorem C5_buffer_cleared_on_entry_witness :
    (processChunkPipeline initPipe [2] 1).bm.speech_buffer = [2] ∧
    (processChunkPipeline (processChunkPipeline initPipe [2] 1) [3] 0).bm.speech_buffer =
      (processChunkPipeline initPipe [2] 1).bm.speech_buffer :=
  ⟨C5_buffer_cleared_on_entry.1 initPipe [2] 1 rfl (by decide),
   C5_buffer_cleared_on_entry.2.2 (processChunkPipeline initPipe [2] 1) [3] 0
     rfl (by decide)⟩

theorem processOneChunk_processed (p : PipeState) (chunk : Chunk)
    (cb : Option Cb) (b : WorkerBehavior)
    (hcb : ∀ f, cb = some f → ∀ ch ctx st,
        ((f ch ctx st).1).bm.total_chunks_processed = st.bm.total_chunks_processed) :
    (processOneChunk p chunk cb b).bm.total_chunks_processed =
      p.bm.total_chunks_processed + 1 := by
  unfold processOneChunk
  dsimp only
  cases hr : b.ringExc with
  | none =>
    cases cb with
    | none => rfl
    | some f =>
      cases hc : b.ctxExc with
      | some e => simp [pushError_processed]
      | none =>
        dsimp only
        have hf := hcb f rfl chunk
          ({ p with bm := { p.bm with
              ring_buffer := ringExtend p.bm.ring_cap p.bm.ring_buffer chunk } }).bm.ring_buffer
          { p with bm := { p.bm with
              ring_buffer := ringExtend p.bm.ring_cap p.bm.ring_buffer chunk } }
        cases hoe : (f chunk
            ({ p with bm := { p.bm with
                ring_buffer := ringExtend p.bm.ring_cap p.bm.ring_buffer chunk } }).bm.ring_buffer
            { p with bm := { p.bm with
                ring_buffer := ringExtend p.bm.ring_cap p.bm.ring_buffer chunk } }).2 with
        | none => simp only [hf]
        | some e => simp only [pushError_processed, hf]
  | some e0 =>
    cases cb with
    | none => simp [pushError_processed]
    | some f =>
      cases hc : b.ctxExc with
      | some e1 => simp [pushError_processed]
      | none =>
        dsimp only
        have hf := hcb f rfl chunk
          (pushError p ("processing_ringbuffer", "failed to extend ring buffer")
            b.ringErrPutOk).bm.ring_buffer
          (pushError p ("processing_ringbuffer", "failed to extend ring buffer")
            b.ringErrPutOk)
        cases hoe : (f chunk
            (pushError p ("processing_ringbuffer", "failed to extend ring buffer")
              b.ringErrPutOk).bm.ring_buffer
            (pushError p ("processing_ringbuffer", "failed to extend ring buffer")
              b.ringErrPutOk)).2 with
        | none => simp only [hf, pushError_processed]
        | some e => simp only [pushError_processed, hf]

theorem runWorker_processed (p : PipeState) (cb : Option Cb)
    (items : List (Chunk × WorkerBehavior))
    (hcb : ∀ f, cb = some f → ∀ ch ctx st,
        ((f ch ctx st).1).bm.total_chunks_processed = st.bm.total_chunks_processed) :
    (runWorker p cb items).bm.total_chunks_processed =
      p.bm.total_chunks_processed + items.length := by
  induction items generalizing p with
  | nil => simp [runWorker]
  | cons it its ih =>
    have h1 := processOneChunk_processed p it.1 cb it.2 hcb
    have h2 := ih (processOneChunk p it.1 cb it.2)
    calc (runWorker p cb (it :: its)).bm.total_chunks_processed
        = (runWorker (processOneChunk p it.1 cb it.2) cb its).bm.total_chunks_processed := rfl
      _ = (processOneChunk p it.1 cb it.2).bm.total_chunks_processed + its.length := h2
      _ = p.bm.total_chunks_processed + 1 + its.length := by rw [h1]
      _ = p.bm.total_chunks_processed + (it :: its).length := by
            simp [List.length_cons]
            omega

/-- A downstream callback that raises exactly on the chunk [7] and touches
no state. -/
def chunk7Cb : Cb := fun ch _ st => (st, if ch = [7] then some "boom" else none)

/-- Ten one-sample chunks 1..10, each popped with the benign worker
behaviour. -/
def tenChunks : List (Chunk × WorkerBehavior) :=
  (List.range 10).map (fun i => ([(i : Int) + 1], okWorker))

/-- C7: for any chunk sequence and any fault pattern, the worker increments
the processed counter exactly once per popped chunk (the callback may
mutate the session arbitrarily as long as it does not itself write that
counter, which `_process_chunk` does not); and in the 10-chunk scenario
where the callback raises exactly on chunk 7, all ten chunks are counted,
the ring buffer ends up with all ten samples, and the fault channel holds
exactly the one entry for chunk 7. -/
theorem C7_worker_fault_isolation :
    (∀ (p : PipeState) (cb : Option Cb) (items : List (Chunk × WorkerBehavior)),
        (∀ f, cb = some f → ∀ ch ctx st,
            ((f ch ctx st).1).bm.total_chunks_processed = st.bm.total_chunks_processed) →
        (runWorker p cb items).bm.total_chunks_processed =
          p.bm.total_chunks_processed + items.length) ∧
    (runWorker initPipe (some chunk7Cb) tenChunks).bm.total_chunks_processed = 10 ∧
    (runWorker initPipe (some chunk7Cb) tenChunks).bm.error_queue =
      [("processing_callback", "boom")] ∧
    (runWorker initPipe (some chunk7Cb) tenChunks).bm.ring_buffer =
      [1, 2, 3, 4, 5, 6, 7, 8, 9, 10] :=
  ⟨fun p cb items hcb => runWorker_processed p cb items hcb, rfl, rfl, rfl⟩

/-- Witness for C7: a two-chunk drain with no callback registered counts
both chunks. -/
theorem C7_worker_fault_isolation_witness :
    (runWorker initPipe none [([1], okWorker), ([2], okWorker)]).bm.total_chunks_processed =
      initPipe.bm.total_chunks_processed + 2 :=
  C7_worker_fault_isolation.1 initPipe none [([1], okWorker), ([2], okWorker)]
    (fun _ hf => nomatch hf)

/-- A restarted session: `start()`, five captured silent chunks, `stop()`,
then `start()` again. -/
def restartedPipe : PipeState :=
  (pipelineStart
    (pipelineStop
      (captureStep (captureStep (captureStep (captureStep (captureStep
        ((pipelineStart initPipe none).2) [1] 0) [1] 0) [1] 0) [1] 0) [1] 0))
    none).2

/-- C9 counterexample: immediately after the second `start()` the
chunks-received counter still reads 5 — `start_recording` resets no chunk
counter, so "all counters are reset exactly at session start()" fails —
while the pipeline-level utterance counter is indeed 0 again. -/
theorem C9_chunk_counters_survive_start :
    restartedPipe.bm.total_chunks_received = 5 ∧
    restartedPipe.utterance_count = 0 :=
  ⟨rfl, rfl⟩

/-- C9 (amended): under every session operation the chunk counters are
monotonically non-decreasing, and outside `start()` the utterance counter
and the cumulative speech time are monotonically non-decreasing too;
`start()` resets exactly the pipeline counters (utterances completed and
cumulative speech duration) to zero and leaves the chunk counters of the
buffer manager untouched — they are initialised only at construction. -/
theorem C9_counters_monotone :
    ∀ (p : PipeState) (op : SessionOp),
      p.bm.total_chunks_received ≤ (applyOp p op).bm.total_chunks_received ∧
      p.bm.total_chunks_processed ≤ (applyOp p op).bm.total_chunks_processed ∧
      (op.isStart = false →
        p.utterance_count ≤ (applyOp p op).utterance_count ∧
        p.total_speech_time ≤ (applyOp p op).total_speech_time) ∧
      (∀ oe, op = SessionOp.start oe →
        (applyOp p op).utterance_count = 0 ∧
        (applyOp p op).total_speech_time = 0 ∧
        (applyOp p op).bm.total_chunks_received = p.bm.total_chunks_received ∧
        (applyOp p op).bm.total_chunks_processed = p.bm.total_chunks_processed) := by
  intro p op
  cases op with
  | capture c prob =>
    have hstep : applyOp p (SessionOp.capture c prob) = captureStep p c prob := rfl
    rw [hstep]
    unfold captureStep
    cases hpn : putNowait p.bm.queue_maxsize p.bm.audio_queue c with
    | none =>
      exact ⟨Nat.le_refl _, Nat.le_refl _,
        fun _ => ⟨Nat.le_refl _, le_refl _⟩, fun oe h => nomatch h⟩
    | some q =>
      dsimp only
      refine ⟨?_, ?_, fun _ => ⟨?_, ?_⟩, fun oe h => nomatch h⟩
      · rw [processChunkPipeline_received]
        exact Nat.le_succ _
      · rw [processChunkPipeline_processed]
      · exact processChunkPipeline_count_le_of_eq p _ c prob rfl
      · exact processChunkPipeline_time_le_of_eq p _ c prob rfl
  | worker prob =>
    have hstep : applyOp p (SessionOp.worker prob) = workerStep p prob := rfl
    rw [hstep]
    unfold workerStep
    cases hq : p.bm.audio_queue with
    | nil =>
      exact ⟨Nat.le_refl _, Nat.le_refl _,
        fun _ => ⟨Nat.le_refl _, le_refl _⟩, fun oe h => nomatch h⟩
    | cons chunk rest =>
      dsimp only
      have hcb : ∀ f, (some (pipeCb prob) : Option Cb) = some f → ∀ ch ctx st,
          ((f ch ctx st).1).bm.total_chunks_processed = st.bm.total_chunks_processed := by
        intro f hf ch ctx st
        cases hf
        exact processChunkPipeline_processed st ch prob
      have hpr := processOneChunk_processed
        { p with bm := { p.bm with audio_queue := rest } } chunk
        (some (pipeCb prob)) okWorker hcb
      refine ⟨?_, ?_, fun _ => ⟨?_, ?_⟩, fun oe h => nomatch h⟩
      · have : (processOneChunk { p with bm := { p.bm with audio_queue := rest } }
            chunk (some (pipeCb prob)) okWorker).bm.total_chunks_received =
            p.bm.total_chunks_received := by
          unfold processOneChunk okWorker pipeCb
          dsimp only
          simp only [processChunkPipeline_received]
        rw [this]
      · rw [hpr]
        exact Nat.le_succ _
      · have heq : (processOneChunk { p with bm := { p.bm with audio_queue := rest } }
            chunk (some (pipeCb prob)) okWorker).utterance_count =
            (processChunkPipeline { p with bm := { p.bm with
              audio_queue := rest
              ring_buffer := ringExtend p.bm.ring_cap p.bm.ring_buffer chunk } }
              chunk prob).utterance_count := rfl
        rw [heq]
        exact processChunkPipeline_count_le_of_eq p _ chunk prob rfl
      · have heq : (processOneChunk { p with bm := { p.bm with audio_queue := rest } }
            chunk (some (pipeCb prob)) okWorker).total_speech_time =
            (processChunkPipeline { p with bm := { p.bm with
              audio_queue := rest
              ring_buffer := ringExtend p.bm.ring_cap p.bm.ring_buffer chunk } }
              chunk prob).total_speech_time := rfl
        rw [heq]
        exact processChunkPipeline_time_le_of_eq p _ chunk prob rfl
  | start oe =>
    refine ⟨?_, ?_, ?_, ?_⟩
    · have : (applyOp p (SessionOp.start oe)).bm.total_chunks_received =
          p.bm.total_chunks_received := by
        show ((pipelineStart p oe).2).bm.total_chunks_received = _
        unfold pipelineStart
        dsimp only
        rw [startRecording_received]
      rw [this]
    · have : (applyOp p (SessionOp.start oe)).bm.total_chunks_processed =
          p.bm.total_chunks_processed := by
        show ((pipelineStart p oe).2).bm.total_chunks_processed = _
        unfold pipelineStart
        dsimp only
        rw [startRecording_processed]
      rw [this]
    · intro h
      simp [SessionOp.isStart] at h
    · intro oe2 h
      refine ⟨rfl, rfl, ?_, ?_⟩
      · show ((pipelineStart p oe).2).bm.total_chunks_received = _
        unfold pipelineStart
        dsimp only
        rw [startRecording_received]
      · show ((pipelineStart p oe).2).bm.total_chunks_processed = _
        unfold pipelineStart
        dsimp only
        rw [startRecording_processed]
  | stop =>
    have hstep : applyOp p SessionOp.stop = pipelineStop p := rfl
    rw [hstep]
    unfold pipelineStop
    split
    · exact ⟨Nat.le_refl _, Nat.le_refl _,
        fun _ => ⟨Nat.le_refl _, le_refl _⟩, fun oe h => nomatch h⟩
    · have h1 : (stopRecording p.bm).total_chunks_received =
          p.bm.total_chunks_received := by
        unfold stopRecording
        split <;> rfl
      have h2 : (stopRecording p.bm).total_chunks_processed =
          p.bm.total_chunks_processed := by
        unfold stopRecording
        split <;> rfl
      exact ⟨le_of_eq h1.symm, le_of_eq h2.symm,
        fun _ => ⟨Nat.le_refl _, le_refl _⟩, fun oe h => nomatch h⟩

/-- Witness for C9: on a fresh session a silent capture keeps the
utterance counter non-decreasing, and a `start` resets it to zero. -/
theorem C9_counters_monotone_witness :
    initPipe.utterance_count ≤
      (applyOp initPipe (SessionOp.capture [1] 0)).utterance_count ∧
    (applyOp initPipe (SessionOp.start none)).utterance_count = 0 :=
  ⟨((C9_counters_monotone initPipe (SessionOp.capture [1] 0)).2.2.1 rfl).1,
   ((C9_counters_monotone initPipe (SessionOp.start none)).2.2.2 none rfl).1⟩

end DhwaniX
